import Mathlib

/-!
Shallow embedding of the coinHunter trading core: the pricing model,
the position ledger (tradingLogic), the token qualifier (tokenAnalyzer)
and the exit-strategy engine (exitStrategy), translated from the
JavaScript source.  Numbers are modelled as rationals, external lookups
(mint info, pool liquidity, current price) as explicit `Option` inputs,
and the sampled slippage of a buy/sell as an explicit parameter.
-/

namespace CoinHunter

/-- Configuration of the ledger (from the config collaborator; each claim
quantifies over it or fixes the documented defaults). -/
structure Config where
  VIRTUAL_BUDGET_SOL : ℚ
  TRADE_SIZE_SOL : ℚ
  MAX_CONCURRENT_POSITIONS : ℕ
  RAYDIUM_FEE_PERCENT : ℚ
deriving Repr, DecidableEq

/-- Modelled from the spec: default configuration values (the config module
is an external collaborator, not part of the core source): virtual budget
5 SOL, trade size 0.5 SOL, at most 10 concurrent positions, 0.25% fee. -/
def defaultConfig : Config :=
  { VIRTUAL_BUDGET_SOL := 5
    TRADE_SIZE_SOL := 1/2
    MAX_CONCURRENT_POSITIONS := 10
    RAYDIUM_FEE_PERCENT := 1/400 }

/-- tradingLogic.calculateTokensForSol: tokens received for a SOL amount.
`if (currentPriceInSol <= 0) return 0`, otherwise
`solAmount * (1 - fee) / price * (1 - slippage)`. -/
def calculateTokensForSol (solAmount currentPriceInSol feePercent slippagePercent : ℚ) : ℚ :=
  if currentPriceInSol ≤ 0 then 0
  else solAmount * (1 - feePercent) / currentPriceInSol * (1 - slippagePercent)

/-- tradingLogic.calculateSolForTokens: SOL received for a token amount.
`if (currentPriceInSol <= 0) return 0`, otherwise
`tokenAmount * price * (1 - fee) * (1 - slippage)`. -/
def calculateSolForTokens (tokenAmount currentPriceInSol feePercent slippagePercent : ℚ) : ℚ :=
  if currentPriceInSol ≤ 0 then 0
  else tokenAmount * currentPriceInSol * (1 - feePercent) * (1 - slippagePercent)

/-- A live simulated holding, as built by tradingLogic.simulateBuy. -/
structure Position where
  tokenMintAddress : String
  poolId : String
  buyPrice : ℚ
  buyTimestamp : ℤ
  tokenAmount : ℚ
  peakPrice : ℚ
  tradeSizeSol : ℚ
deriving Repr, DecidableEq

/-- The mutable state of tradingLogic: the virtual budget and the array of
active positions. -/
structure LedgerState where
  virtualBudget : ℚ
  activePositions : List Position
deriving Repr, DecidableEq

/-- The fresh module state of tradingLogic: full configured budget and no
open positions. -/
def initialState (cfg : Config) : LedgerState :=
  { virtualBudget := cfg.VIRTUAL_BUDGET_SOL, activePositions := [] }

/-- tradingLogic.canBuy: false when the budget is below the trade size, the
maximum concurrent position count is reached, or a position already exists
for the mint. -/
def canBuy (cfg : Config) (st : LedgerState) (tokenMint : String) : Bool :=
  if st.virtualBudget < cfg.TRADE_SIZE_SOL then false
  else if cfg.MAX_CONCURRENT_POSITIONS ≤ st.activePositions.length then false
  else if st.activePositions.any (fun pos => pos.tokenMintAddress == tokenMint) then false
  else true

/-- tradingLogic.simulateBuy.  The randomly sampled slippage is passed in as
`slippagePercent` and the wall clock as `now`.  Returns the new position (or
`none` on rejection) together with the resulting ledger state.  The JS guard
`!calculatedTokenAmount || calculatedTokenAmount <= 0` is `≤ 0` on ℚ. -/
def simulateBuy (cfg : Config) (st : LedgerState) (tokenMint poolId : String)
    (currentPriceInSol slippagePercent : ℚ) (now : ℤ) :
    Option Position × LedgerState :=
  if canBuy cfg st tokenMint then
    let calculatedTokenAmount :=
      calculateTokensForSol cfg.TRADE_SIZE_SOL currentPriceInSol
        cfg.RAYDIUM_FEE_PERCENT slippagePercent
    if calculatedTokenAmount ≤ 0 then (none, st)
    else
      let newPosition : Position :=
        { tokenMintAddress := tokenMint
          poolId := poolId
          buyPrice := currentPriceInSol
          buyTimestamp := now
          tokenAmount := calculatedTokenAmount
          peakPrice := currentPriceInSol
          tradeSizeSol := cfg.TRADE_SIZE_SOL }
      (some newPosition,
        { virtualBudget := st.virtualBudget - cfg.TRADE_SIZE_SOL
          activePositions := st.activePositions ++ [newPosition] })
  else (none, st)

/-- The append-only record emitted by a successful sell (logCompletedTrade). -/
structure CompletedTrade where
  position : Position
  sellPrice : ℚ
  solProceeds : ℚ
  exitReason : String
  sellTimestamp : ℤ
  profitOrLoss : ℚ
deriving Repr, DecidableEq

/-- The `{ solProceeds, soldPosition }` value returned by simulateSell,
together with the CompletedTrade record it logs. -/
structure SellResult where
  solProceeds : ℚ
  soldPosition : Position
  completedTrade : CompletedTrade
deriving Repr, DecidableEq

/-- tradingLogic.simulateSell.  Rejects when no active position has the given
mint, or when the computed proceeds are negative; otherwise credits the
budget, removes the position and emits a CompletedTrade. -/
def simulateSell (cfg : Config) (st : LedgerState) (position : Position)
    (currentPriceInSol slippagePercent : ℚ) (exitReason : String) (now : ℤ) :
    Option SellResult × LedgerState :=
  if st.activePositions.any (fun p => p.tokenMintAddress == position.tokenMintAddress) then
    let calculatedSolProceeds :=
      calculateSolForTokens position.tokenAmount currentPriceInSol
        cfg.RAYDIUM_FEE_PERCENT slippagePercent
    if calculatedSolProceeds < 0 then (none, st)
    else
      let completed : CompletedTrade :=
        { position := position
          sellPrice := currentPriceInSol
          solProceeds := calculatedSolProceeds
          exitReason := exitReason
          sellTimestamp := now
          profitOrLoss := calculatedSolProceeds - position.tradeSizeSol }
      (some { solProceeds := calculatedSolProceeds
              soldPosition := position
              completedTrade := completed },
        { virtualBudget := st.virtualBudget + calculatedSolProceeds
          activePositions :=
            st.activePositions.filter
              (fun p => !(p.tokenMintAddress == position.tokenMintAddress)) })
  else (none, st)

/-- The mutation performed by tradingLogic.updatePeakPrice on the positions
array: `find` locates the first position with the mint and raises its stored
peak when the new price strictly exceeds it. -/
def updateFirst : List Position → String → ℚ → List Position
  | [], _, _ => []
  | p :: rest, mint, price =>
    if p.tokenMintAddress == mint then
      (if p.peakPrice < price then { p with peakPrice := price } else p) :: rest
    else p :: updateFirst rest mint price

/-- tradingLogic.updatePeakPrice lifted to the ledger state; a missing
position is a logged no-op. -/
def updatePeakPrice (st : LedgerState) (tokenMintAddress : String)
    (currentPriceInSol : ℚ) : LedgerState :=
  { st with activePositions :=
      updateFirst st.activePositions tokenMintAddress currentPriceInSol }

/-- tradingLogic.initializeTrading: loads the persisted trades into
`activePositions` while the budget keeps the configured initial value (the
commented-out committed-SOL adjustment is not executed); a negative budget is
floor-clamped to 0 afterwards. -/
def initializeTrading (cfg : Config) (loadedTrades : List Position) : LedgerState :=
  let positions := if 0 < loadedTrades.length then loadedTrades else []
  let budget := cfg.VIRTUAL_BUDGET_SOL
  { virtualBudget := if budget < 0 then 0 else budget
    activePositions := positions }

/-- tradingLogic.getVirtualBudget. -/
def getVirtualBudget (st : LedgerState) : ℚ :=
  st.virtualBudget

/-- tradingLogic.getActivePositions returns a copy of the array. -/
def getActivePositions (st : LedgerState) : List Position :=
  st.activePositions

/-- One buy or sell request against the ledger, with its externally sampled
inputs (price, slippage, wall clock). -/
inductive TradeOp where
  | buy (tokenMint poolId : String) (price slippage : ℚ) (now : ℤ)
  | sell (position : Position) (price slippage : ℚ) (reason : String) (now : ℤ)
deriving Repr, DecidableEq

/-- State transition of a single TradeOp (result value discarded). -/
def applyTradeOp (cfg : Config) (st : LedgerState) : TradeOp → LedgerState
  | .buy m pid pr sl now => (simulateBuy cfg st m pid pr sl now).2
  | .sell pos pr sl r now => (simulateSell cfg st pos pr sl r now).2

/-- Runs a finite sequence of buy/sell operations from a state. -/
def runTradeOps (cfg : Config) (st : LedgerState) (ops : List TradeOp) : LedgerState :=
  ops.foldl (applyTradeOp cfg) st

/-- One ledger mutation: buy, sell or peak-price update. -/
inductive LedgerAction where
  | buy (tokenMint poolId : String) (price slippage : ℚ) (now : ℤ)
  | sell (position : Position) (price slippage : ℚ) (reason : String) (now : ℤ)
  | updatePeak (tokenMint : String) (price : ℚ)
deriving Repr, DecidableEq

/-- State transition of a single LedgerAction. -/
def applyAction (cfg : Config) (st : LedgerState) : LedgerAction → LedgerState
  | .buy m pid pr sl now => (simulateBuy cfg st m pid pr sl now).2
  | .sell pos pr sl r now => (simulateSell cfg st pos pr sl r now).2
  | .updatePeak m pr => updatePeakPrice st m pr

/-- Runs a finite sequence of ledger actions from a state. -/
def runActions (cfg : Config) (st : LedgerState) (acts : List LedgerAction) : LedgerState :=
  acts.foldl (applyAction cfg) st

/-- Exit-strategy configuration used by exitStrategy.checkExitConditions. -/
structure ExitConfig where
  PROFIT_TARGET_PERCENT : ℚ
  TRAILING_STOP_PERCENT : ℚ
  TRADE_TIME_LIMIT_MINUTES : ℚ
deriving Repr, DecidableEq

/-- Modelled from the spec: default exit-strategy configuration (the config
module is an external collaborator): 15% profit target, 5% trailing stop,
60 minutes time limit. -/
def defaultExitConfig : ExitConfig :=
  { PROFIT_TARGET_PERCENT := 3/20
    TRAILING_STOP_PERCENT := 1/20
    TRADE_TIME_LIMIT_MINUTES := 60 }

/-- What exitStrategy.checkExitConditions did for one position in one cycle. -/
inductive ExitOutcome where
  | priceUnavailable
  | positionGone
  | sold (reason : String)
  | noExit
deriving Repr, DecidableEq

/-- exitStrategy.checkExitConditions.  The fetched price is an `Option`
(`none` models a failed lookup), the sell-side sampled slippage and the wall
clock are explicit inputs.  Mirrors the source order: price guard, peak
update, re-fetch of the position, then profit target, trailing stop and time
limit, first match selling. -/
def checkExitConditions (cfg : Config) (ecfg : ExitConfig) (st : LedgerState)
    (position : Position) (currentPriceOpt : Option ℚ)
    (sellSlippagePercent : ℚ) (now : ℤ) : ExitOutcome × LedgerState :=
  match currentPriceOpt with
  | none => (.priceUnavailable, st)
  | some currentPriceInSol =>
    if currentPriceInSol ≤ 0 then (.priceUnavailable, st)
    else
      let st1 := updatePeakPrice st position.tokenMintAddress currentPriceInSol
      match st1.activePositions.find?
          (fun p => p.tokenMintAddress == position.tokenMintAddress) with
      | none => (.positionGone, st1)
      | some pu =>
        let activePeakPrice := pu.peakPrice
        let profit := (currentPriceInSol - pu.buyPrice) / pu.buyPrice
        if ecfg.PROFIT_TARGET_PERCENT ≤ profit then
          (.sold "profit_target",
            (simulateSell cfg st1 pu currentPriceInSol sellSlippagePercent
              "profit_target" now).2)
        else if pu.buyPrice * (1 + ecfg.PROFIT_TARGET_PERCENT) < activePeakPrice ∧
            currentPriceInSol < activePeakPrice * (1 - ecfg.TRAILING_STOP_PERCENT) then
          (.sold "trailing_stop",
            (simulateSell cfg st1 pu currentPriceInSol sellSlippagePercent
              "trailing_stop" now).2)
        else if ecfg.TRADE_TIME_LIMIT_MINUTES ≤
            ((now - pu.buyTimestamp : ℤ) : ℚ) / (1000 * 60) then
          (.sold "time_limit",
            (simulateSell cfg st1 pu currentPriceInSol sellSlippagePercent
              "time_limit" now).2)
        else (.noExit, st1)

/-- Drives successive exit-engine cycles for one mint over a list of fetched
prices (one price per cycle, as monitorTrades does), with zero sell slippage
and a fixed wall clock.  Stops at the first cycle that sells, returning the
price and reason of that sale. -/
def runCycles (cfg : Config) (ecfg : ExitConfig) (mint : String) (now : ℤ) :
    LedgerState → List ℚ → Option (ℚ × String) × LedgerState
  | st, [] => (none, st)
  | st, price :: rest =>
    match st.activePositions.find? (fun p => p.tokenMintAddress == mint) with
    | none => (none, st)
    | some pos =>
      match checkExitConditions cfg ecfg st pos (some price) 0 now with
      | (.sold r, st1) => (some (price, r), st1)
      | (_, st1) => runCycles cfg ecfg mint now st1 rest

/-- A position bought at price 1.0 (peak initialized to the buy price), as in
the exit-path example of the spec. -/
def examplePosition : Position :=
  { tokenMintAddress := "TOKEN"
    poolId := "POOL"
    buyPrice := 1
    buyTimestamp := 0
    tokenAmount := 1
    peakPrice := 1
    tradeSizeSol := 1/2 }

/-- Ledger state holding only examplePosition. -/
def exampleState : LedgerState :=
  { virtualBudget := 9/2, activePositions := [examplePosition] }

/-- The successive cycle prices of the exit-path example. -/
def examplePrices : List ℚ :=
  [1, 6/5, 13/10, 121/100]

/-- Qualifier configuration used by tokenAnalyzer.analyzeTokenAndPool. -/
structure QualifierConfig where
  MAX_POOL_AGE_MINUTES : ℚ
  MIN_LIQUIDITY_SOL : ℚ
deriving Repr, DecidableEq

/-- Modelled from the spec: default qualifier configuration (the config
module is an external collaborator): 5 minute age ceiling, 10 SOL minimum
liquidity. -/
def defaultQualifierConfig : QualifierConfig :=
  { MAX_POOL_AGE_MINUTES := 5, MIN_LIQUIDITY_SOL := 10 }

/-- The wrapped-native-token mint constant of tokenAnalyzer. -/
def WRAPPED_SOL_MINT : String :=
  "So11111111111111111111111111111111111111112"

/-- The poolData record consumed by analyzeTokenAndPool (timestamp in epoch
milliseconds, as produced by `new Date(...).getTime()`). -/
structure PoolData where
  ammId : String
  tokenA_mint : String
  tokenB_mint : String
  timestamp : ℤ
deriving Repr, DecidableEq

/-- The slice of getMintAccountInfo output the qualifier reads. -/
structure MintInfo where
  freezeAuthority : Option String
deriving Repr, DecidableEq

/-- The slice of getPoolLiquidity output the qualifier reads: whether a
truthy `rawData` field is present, and the `solAmount` field (`none` models
`undefined`). -/
structure LiquidityData where
  rawData : Bool
  solAmount : Option ℚ
deriving Repr, DecidableEq

/-- JS falsiness of an optional numeric field: absent or zero. -/
def jsFalsy : Option ℚ → Bool
  | none => true
  | some q => q == 0

/-- The verdict record returned by analyzeTokenAndPool. -/
structure Verdict where
  suitable : Bool
  reason : String
  tokenMint : Option String
  poolId : Option String
deriving Repr, DecidableEq

/-- A reject verdict (no token mint or pool id carried). -/
def rejectVerdict (reason : String) : Verdict :=
  { suitable := false, reason := reason, tokenMint := none, poolId := none }

/-- An accept verdict carrying the candidate mint and pool id. -/
def acceptVerdict (tokenMint poolId reason : String) : Verdict :=
  { suitable := true, reason := reason
    tokenMint := some tokenMint, poolId := some poolId }

/-- tokenAnalyzer.analyzeTokenAndPool.  External lookups (mint info and pool
liquidity) are explicit `Option` inputs; `now` is the wall clock in epoch
milliseconds.  Rule order mirrors the source: pool age, SOL pairing, freeze
authority, liquidity (with the optimistic raw-data branch kept as written). -/
def analyzeTokenAndPool (qcfg : QualifierConfig) (now : ℤ) (poolData : PoolData)
    (mintInfoOpt : Option MintInfo) (liquidityOpt : Option LiquidityData) : Verdict :=
  let poolAgeMinutes : ℚ := ((now - poolData.timestamp : ℤ) : ℚ) / (1000 * 60)
  if qcfg.MAX_POOL_AGE_MINUTES < poolAgeMinutes then
    rejectVerdict "pool too old"
  else
    let mints : Option (String × String) :=
      if poolData.tokenA_mint == WRAPPED_SOL_MINT then
        some (poolData.tokenA_mint, poolData.tokenB_mint)
      else if poolData.tokenB_mint == WRAPPED_SOL_MINT then
        some (poolData.tokenB_mint, poolData.tokenA_mint)
      else none
    match mints with
    | none => rejectVerdict "not a direct SOL pair or missing token mints"
    | some (_solMint, newTokenMint) =>
      -- JS `!newTokenMint`: the other mint may be the empty string (falsy)
      if newTokenMint == "" then
        rejectVerdict "not a direct SOL pair or missing token mints"
      else if newTokenMint == WRAPPED_SOL_MINT then
        rejectVerdict "new token mint cannot be SOL itself"
      else
        match mintInfoOpt with
        | none => rejectVerdict "failed to fetch mint info"
        | some mintInfo =>
          match mintInfo.freezeAuthority with
          | some _ => rejectVerdict "freeze authority is not revoked"
          | none =>
            match liquidityOpt with
            | none => rejectVerdict "failed to fetch liquidity data"
            | some liquidityData =>
              if liquidityData.rawData && jsFalsy liquidityData.solAmount then
                -- source: optimistic pass-through when only raw data exists
                acceptVerdict newTokenMint poolData.ammId "all checks passed"
              else
                match liquidityData.solAmount with
                | some solReserveAmount =>
                  if solReserveAmount < qcfg.MIN_LIQUIDITY_SOL then
                    rejectVerdict "insufficient SOL liquidity"
                  else
                    acceptVerdict newTokenMint poolData.ammId "all checks passed"
                | none => rejectVerdict "liquidity data in unexpected format"

/-- A pool event that passes age, pairing and freeze checks but whose
liquidity lookup yields only unparseable raw data. -/
def rawOnlyPoolData : PoolData :=
  { ammId := "AMM1"
    tokenA_mint := WRAPPED_SOL_MINT
    tokenB_mint := "NEWTOKEN"
    timestamp := 0 }

/-- A configuration with unit trade size and zero fee, used to instantiate
hypothesis-bearing theorems at concrete inputs. -/
def witnessConfig : Config :=
  { VIRTUAL_BUDGET_SOL := 5
    TRADE_SIZE_SOL := 1
    MAX_CONCURRENT_POSITIONS := 10
    RAYDIUM_FEE_PERCENT := 0 }

/-- The position produced by buying 1 SOL at price 1 with zero fee and zero
sampled slippage under witnessConfig. -/
def witnessBoughtPosition : Position :=
  { tokenMintAddress := "T"
    poolId := "P"
    buyPrice := 1
    buyTimestamp := 0
    tokenAmount := 1
    peakPrice := 1
    tradeSizeSol := 1 }

/-- A ledger state holding witnessBoughtPosition, used to instantiate the
sell and peak-price theorems. -/
def witnessSellState : LedgerState :=
  { virtualBudget := 4, activePositions := [witnessBoughtPosition] }

/-- Mint info with a revoked freeze authority. -/
def revokedMintInfo : MintInfo :=
  { freezeAuthority := none }

/-- Liquidity lookup result carrying only raw, unparseable data (no
recognizable SOL amount). -/
def rawOnlyLiquidity : LiquidityData :=
  { rawData := true, solAmount := none }

/-- Liquidity lookup result with a parsed SOL reserve of 50. -/
def parsedLiquidity : LiquidityData :=
  { rawData := false, solAmount := some 50 }

/-- An exit configuration used to instantiate the trailing-stop rule at
concrete inputs: 100% profit target, 0% trailing stop, 60 minute limit. -/
def armedExitConfig : ExitConfig :=
  { PROFIT_TARGET_PERCENT := 1
    TRAILING_STOP_PERCENT := 0
    TRADE_TIME_LIMIT_MINUTES := 60 }

/-- A position whose peak already exceeds buy*(1+target) under
armedExitConfig, i.e. with the trailing stop armed. -/
def armedPosition : Position :=
  { tokenMintAddress := "TOKEN"
    poolId := "POOL"
    buyPrice := 0
    buyTimestamp := 0
    tokenAmount := 1
    peakPrice := 2
    tradeSizeSol := 1 }

/-- Ledger state holding only armedPosition. -/
def armedState : LedgerState :=
  { virtualBudget := 0, activePositions := [armedPosition] }

end CoinHunter

namespace CoinHunter

/-- C5: the buy-side pricing function returns solIn(1-fee)/price(1-slippage) and
the sell-side returns tokenAmount*price*(1-fee)*(1-slippage) for positive price;
for price ≤ 0 both return exactly 0; and for fixed positive price and solIn,
tokensOut strictly decreases as fee or slippage increases on [0,1). -/
theorem pricing_model_spec :
    (∀ s p f sl : ℚ, 0 < p →
      calculateTokensForSol s p f sl = s * (1 - f) / p * (1 - sl)) ∧
    (∀ t p f sl : ℚ, 0 < p →
      calculateSolForTokens t p f sl = t * p * (1 - f) * (1 - sl)) ∧
    (∀ s t p f sl : ℚ, p ≤ 0 →
      calculateTokensForSol s p f sl = 0 ∧ calculateSolForTokens t p f sl = 0) ∧
    (∀ s p sl f₁ f₂ : ℚ, 0 < p → 0 < s → 0 ≤ sl → sl < 1 → 0 ≤ f₁ → f₁ < f₂ → f₂ < 1 →
      calculateTokensForSol s p f₂ sl < calculateTokensForSol s p f₁ sl) ∧
    (∀ s p f sl₁ sl₂ : ℚ, 0 < p → 0 < s → 0 ≤ f → f < 1 → 0 ≤ sl₁ → sl₁ < sl₂ → sl₂ < 1 →
      calculateTokensForSol s p f sl₂ < calculateTokensForSol s p f sl₁) := by
  refine ⟨?_, ?_, ?_, ?_, ?_⟩
  · intro s p f sl hp
    simp [calculateTokensForSol, not_le.mpr hp]
  · intro t p f sl hp
    simp [calculateSolForTokens, not_le.mpr hp]
  · intro s t p f sl hp
    simp [calculateTokensForSol, calculateSolForTokens, hp]
  · intro s p sl f₁ f₂ hp hs hsl0 hsl1 hf0 hff hf1
    simp only [calculateTokensForSol, if_neg (not_le.mpr hp)]
    have h1 : s * (1 - f₂) < s * (1 - f₁) :=
      mul_lt_mul_of_pos_left (by linarith) hs
    have h2 : s * (1 - f₂) / p < s * (1 - f₁) / p :=
      (div_lt_div_iff_of_pos_right hp).mpr h1
    exact mul_lt_mul_of_pos_right h2 (by linarith)
  · intro s p f sl₁ sl₂ hp hs hf0 hf1 hsl0 hslsl hsl1
    simp only [calculateTokensForSol, if_neg (not_le.mpr hp)]
    have hpos : 0 < s * (1 - f) / p := div_pos (mul_pos hs (by linarith)) hp
    exact mul_lt_mul_of_pos_left (by linarith) hpos

/-- Witness for pricing_model_spec at concrete inputs. -/
theorem pricing_model_spec_witness :
    (0:ℚ) < 2 ∧ calculateTokensForSol 3 2 0 0 = 3 * (1 - 0) / 2 * (1 - 0) :=
  ⟨by norm_num, pricing_model_spec.1 3 2 0 0 (by norm_num)⟩

/-- C9: composing the buy-side and sell-side pricing functions with zero fee
and zero slippage at the same positive price is the identity on the SOL
amount: a buy then sell round trip returns exactly the SOL committed. -/
theorem round_trip_identity (p s : ℚ) (hp : 0 < p) :
    calculateSolForTokens (calculateTokensForSol s p 0 0) p 0 0 = s := by
  simp only [calculateTokensForSol, calculateSolForTokens, if_neg (not_le.mpr hp)]
  field_simp

/-- Witness for round_trip_identity at price 2 and SOL amount 3. -/
theorem round_trip_identity_witness :
    (0:ℚ) < 2 ∧ calculateSolForTokens (calculateTokensForSol 3 2 0 0) 2 0 0 = 3 :=
  ⟨by norm_num, round_trip_identity 2 3 (by norm_num)⟩

/-- canBuy succeeds exactly when all three admission conditions hold. -/
lemma canBuy_eq_true_iff (cfg : Config) (st : LedgerState) (mint : String) :
    canBuy cfg st mint = true ↔
      cfg.TRADE_SIZE_SOL ≤ st.virtualBudget ∧
      st.activePositions.length < cfg.MAX_CONCURRENT_POSITIONS ∧
      (st.activePositions.any (fun pos => pos.tokenMintAddress == mint)) = false := by
  unfold canBuy
  split_ifs with h1 h2 h3
  · simp only [Bool.false_eq_true, false_iff]
    rintro ⟨ha, -, -⟩
    exact absurd ha (not_le.mpr h1)
  · simp only [Bool.false_eq_true, false_iff]
    rintro ⟨-, hb, -⟩
    exact absurd hb (not_lt.mpr h2)
  · simp only [Bool.false_eq_true, false_iff]
    rintro ⟨-, -, hany⟩
    rw [h3] at hany
    exact Bool.true_eq_false.mp hany
  · simp only [true_iff]
    exact ⟨not_lt.mp h1, not_le.mp h2, by simpa using h3⟩

/-- C3: simulateBuy rejects whenever canBuy would return false (equivalently,
whenever the budget is below the trade size, the position count is at the
maximum, or a position for the mint exists); a successful buy implies all
three admission conditions, decrements the budget by exactly the trade size
and appends a position for the mint with peak price initialized to the
reference price. -/
theorem buy_admission_spec (cfg : Config) (st : LedgerState)
    (mint pid : String) (price sl : ℚ) (now : ℤ) :
    (canBuy cfg st mint = false →
      (simulateBuy cfg st mint pid price sl now).1 = none) ∧
    (st.virtualBudget < cfg.TRADE_SIZE_SOL ∨
        cfg.MAX_CONCURRENT_POSITIONS ≤ st.activePositions.length ∨
        (st.activePositions.any (fun pos => pos.tokenMintAddress == mint)) = true →
      (simulateBuy cfg st mint pid price sl now).1 = none) ∧
    (∀ pos, (simulateBuy cfg st mint pid price sl now).1 = some pos →
      cfg.TRADE_SIZE_SOL ≤ st.virtualBudget ∧
      st.activePositions.length < cfg.MAX_CONCURRENT_POSITIONS ∧
      (st.activePositions.any (fun q => q.tokenMintAddress == mint)) = false ∧
      (simulateBuy cfg st mint pid price sl now).2.virtualBudget
        = st.virtualBudget - cfg.TRADE_SIZE_SOL ∧
      (simulateBuy cfg st mint pid price sl now).2.activePositions
        = st.activePositions ++ [pos] ∧
      pos.tokenMintAddress = mint ∧ pos.peakPrice = price) := by
  refine ⟨?_, ?_, ?_⟩
  · intro h
    simp [simulateBuy, h]
  · intro h
    have hc : canBuy cfg st mint = false := by
      rcases Bool.eq_false_or_eq_true (canBuy cfg st mint) with hc | hc
      · exfalso
        rcases (canBuy_eq_true_iff cfg st mint).mp hc with ⟨ha, hb, hany⟩
        rcases h with h | h | h
        · exact absurd ha (not_le.mpr h)
        · exact absurd hb (not_lt.mpr h)
        · rw [h] at hany; exact Bool.true_eq_false.mp hany
      · exact hc
    simp [simulateBuy, hc]
  · intro pos h
    by_cases hc : canBuy cfg st mint = true
    · rcases (canBuy_eq_true_iff cfg st mint).mp hc with ⟨ha, hb, hany⟩
      by_cases hamt : calculateTokensForSol cfg.TRADE_SIZE_SOL price
          cfg.RAYDIUM_FEE_PERCENT sl ≤ 0
      · simp [simulateBuy, hc, hamt] at h
      · simp only [simulateBuy, hc, if_true, hamt, if_false, if_neg hamt,
          Option.some.injEq] at h
        refine ⟨ha, hb, hany, ?_, ?_, ?_, ?_⟩ <;>
          simp [simulateBuy, hc, hamt, ← h]
    · rw [Bool.not_eq_true] at hc
      simp [simulateBuy, hc] at h

/-- Witness for buy_admission_spec: a successful buy from the fresh witness
state satisfies the success conclusions. -/
theorem buy_admission_spec_witness :
    (simulateBuy witnessConfig (initialState witnessConfig) "T" "P" 1 0 0).1
      = some witnessBoughtPosition ∧
    (witnessConfig.TRADE_SIZE_SOL ≤ (initialState witnessConfig).virtualBudget ∧
      (initialState witnessConfig).activePositions.length
        < witnessConfig.MAX_CONCURRENT_POSITIONS ∧
      ((initialState witnessConfig).activePositions.any
        (fun q => q.tokenMintAddress == "T")) = false ∧
      (simulateBuy witnessConfig (initialState witnessConfig) "T" "P" 1 0 0).2.virtualBudget
        = (initialState witnessConfig).virtualBudget - witnessConfig.TRADE_SIZE_SOL ∧
      (simulateBuy witnessConfig (initialState witnessConfig) "T" "P" 1 0 0).2.activePositions
        = (initialState witnessConfig).activePositions ++ [witnessBoughtPosition] ∧
      witnessBoughtPosition.tokenMintAddress = "T" ∧
      witnessBoughtPosition.peakPrice = 1) :=
  ⟨by simp +decide [simulateBuy, canBuy, calculateTokensForSol, witnessConfig,
      initialState, witnessBoughtPosition],
    (buy_admission_spec witnessConfig (initialState witnessConfig) "T" "P" 1 0 0).2.2
      witnessBoughtPosition
      (by simp +decide [simulateBuy, canBuy, calculateTokensForSol, witnessConfig,
        initialState, witnessBoughtPosition])⟩

/-- C7: simulateSell rejects when no open position matches the mint and when
the computed proceeds are negative; every rejection leaves the state
unchanged; a sell with a matching position and nonnegative proceeds succeeds,
credits the budget by exactly the proceeds, removes the matching position,
and emits a CompletedTrade whose profit/loss is proceeds minus the committed
cost. -/
theorem sell_rejection_spec (cfg : Config) (st : LedgerState) (pos : Position)
    (price sl : ℚ) (reason : String) (now : ℤ) :
    ((st.activePositions.any
        (fun p => p.tokenMintAddress == pos.tokenMintAddress)) = false →
      simulateSell cfg st pos price sl reason now = (none, st)) ∧
    (calculateSolForTokens pos.tokenAmount price cfg.RAYDIUM_FEE_PERCENT sl < 0 →
      simulateSell cfg st pos price sl reason now = (none, st)) ∧
    ((simulateSell cfg st pos price sl reason now).1 = none →
      (simulateSell cfg st pos price sl reason now).2 = st) ∧
    ((st.activePositions.any
        (fun p => p.tokenMintAddress == pos.tokenMintAddress)) = true →
      0 ≤ calculateSolForTokens pos.tokenAmount price cfg.RAYDIUM_FEE_PERCENT sl →
      (∃ sr, (simulateSell cfg st pos price sl reason now).1 = some sr ∧
        sr.solProceeds = calculateSolForTokens pos.tokenAmount price
          cfg.RAYDIUM_FEE_PERCENT sl ∧
        sr.completedTrade.profitOrLoss
          = calculateSolForTokens pos.tokenAmount price cfg.RAYDIUM_FEE_PERCENT sl
            - pos.tradeSizeSol) ∧
      (simulateSell cfg st pos price sl reason now).2.virtualBudget
        = st.virtualBudget
          + calculateSolForTokens pos.tokenAmount price cfg.RAYDIUM_FEE_PERCENT sl ∧
      (simulateSell cfg st pos price sl reason now).2.activePositions
        = st.activePositions.filter
            (fun p => !(p.tokenMintAddress == pos.tokenMintAddress))) := by
  refine ⟨?_, ?_, ?_, ?_⟩
  · intro h
    simp [simulateSell, h]
  · intro h
    by_cases hp : (st.activePositions.any
        (fun p => p.tokenMintAddress == pos.tokenMintAddress)) = true
    · simp [simulateSell, hp, h]
    · rw [Bool.not_eq_true] at hp
      simp [simulateSell, hp]
  · intro h
    by_cases hp : (st.activePositions.any
        (fun p => p.tokenMintAddress == pos.tokenMintAddress)) = true
    · by_cases hneg : calculateSolForTokens pos.tokenAmount price
          cfg.RAYDIUM_FEE_PERCENT sl < 0
      · simp [simulateSell, hp, hneg]
      · simp [simulateSell, hp, hneg] at h
    · rw [Bool.not_eq_true] at hp
      simp [simulateSell, hp]
  · intro hp hnn
    have hneg : ¬ calculateSolForTokens pos.tokenAmount price
        cfg.RAYDIUM_FEE_PERCENT sl < 0 := not_lt.mpr hnn
    refine ⟨⟨⟨calculateSolForTokens pos.tokenAmount price cfg.RAYDIUM_FEE_PERCENT sl,
        pos,
        ⟨pos, price, calculateSolForTokens pos.tokenAmount price cfg.RAYDIUM_FEE_PERCENT sl,
          reason, now,
          calculateSolForTokens pos.tokenAmount price cfg.RAYDIUM_FEE_PERCENT sl
            - pos.tradeSizeSol⟩⟩, ?_, rfl, rfl⟩, ?_, ?_⟩ <;>
      simp [simulateSell, hp, hneg]

/-- Witness for sell_rejection_spec: a successful sell of the witness
position at price 1 with zero fee and slippage. -/
theorem sell_rejection_spec_witness :
    ((witnessSellState.activePositions.any
        (fun p => p.tokenMintAddress == witnessBoughtPosition.tokenMintAddress)) = true) ∧
    (0 ≤ calculateSolForTokens witnessBoughtPosition.tokenAmount 1
        witnessConfig.RAYDIUM_FEE_PERCENT 0) ∧
    ((∃ sr, (simulateSell witnessConfig witnessSellState witnessBoughtPosition
          1 0 "time_limit" 0).1 = some sr ∧
        sr.solProceeds = calculateSolForTokens witnessBoughtPosition.tokenAmount 1
          witnessConfig.RAYDIUM_FEE_PERCENT 0 ∧
        sr.completedTrade.profitOrLoss
          = calculateSolForTokens witnessBoughtPosition.tokenAmount 1
              witnessConfig.RAYDIUM_FEE_PERCENT 0
            - witnessBoughtPosition.tradeSizeSol) ∧
      (simulateSell witnessConfig witnessSellState witnessBoughtPosition
          1 0 "time_limit" 0).2.virtualBudget
        = witnessSellState.virtualBudget
          + calculateSolForTokens witnessBoughtPosition.tokenAmount 1
              witnessConfig.RAYDIUM_FEE_PERCENT 0 ∧
      (simulateSell witnessConfig witnessSellState witnessBoughtPosition
          1 0 "time_limit" 0).2.activePositions
        = witnessSellState.activePositions.filter
            (fun p => !(p.tokenMintAddress == witnessBoughtPosition.tokenMintAddress))) := by
  have hp : (witnessSellState.activePositions.any
      (fun p => p.tokenMintAddress == witnessBoughtPosition.tokenMintAddress)) = true := by
    simp [witnessSellState, witnessBoughtPosition]
  have hnn : 0 ≤ calculateSolForTokens witnessBoughtPosition.tokenAmount 1
      witnessConfig.RAYDIUM_FEE_PERCENT 0 := by
    simp +decide [calculateSolForTokens, witnessBoughtPosition, witnessConfig]
  exact ⟨hp, hnn,
    (sell_rejection_spec witnessConfig witnessSellState witnessBoughtPosition
      1 0 "time_limit" 0).2.2.2 hp hnn⟩

/-- A single buy step preserves nonnegative budget and the position cap. -/
lemma simulateBuy_invariant (cfg : Config) (st : LedgerState) (m pid : String)
    (pr sl : ℚ) (now : ℤ)
    (h1 : 0 ≤ st.virtualBudget)
    (h2 : st.activePositions.length ≤ cfg.MAX_CONCURRENT_POSITIONS) :
    0 ≤ (simulateBuy cfg st m pid pr sl now).2.virtualBudget ∧
    (simulateBuy cfg st m pid pr sl now).2.activePositions.length
      ≤ cfg.MAX_CONCURRENT_POSITIONS := by
  by_cases hc : canBuy cfg st m = true
  · rcases (canBuy_eq_true_iff cfg st m).mp hc with ⟨ha, hb, -⟩
    by_cases hamt : calculateTokensForSol cfg.TRADE_SIZE_SOL pr
        cfg.RAYDIUM_FEE_PERCENT sl ≤ 0
    · simp [simulateBuy, hc, hamt, h1, h2]
    · constructor
      · simp only [simulateBuy, hc, if_true, if_neg hamt]
        simpa using sub_nonneg.mpr ha
      · simp only [simulateBuy, hc, if_true, if_neg hamt]
        simpa [List.length_append] using hb
  · rw [Bool.not_eq_true] at hc
    simp [simulateBuy, hc, h1, h2]

/-- A single sell step preserves nonnegative budget and the position cap. -/
lemma simulateSell_invariant (cfg : Config) (st : LedgerState) (pos : Position)
    (pr sl : ℚ) (reason : String) (now : ℤ)
    (h1 : 0 ≤ st.virtualBudget)
    (h2 : st.activePositions.length ≤ cfg.MAX_CONCURRENT_POSITIONS) :
    0 ≤ (simulateSell cfg st pos pr sl reason now).2.virtualBudget ∧
    (simulateSell cfg st pos pr sl reason now).2.activePositions.length
      ≤ cfg.MAX_CONCURRENT_POSITIONS := by
  by_cases hp : (st.activePositions.any
      (fun p => p.tokenMintAddress == pos.tokenMintAddress)) = true
  · by_cases hneg : calculateSolForTokens pos.tokenAmount pr
        cfg.RAYDIUM_FEE_PERCENT sl < 0
    · simp [simulateSell, hp, hneg, h1, h2]
    · constructor
      · simp only [simulateSell, hp, if_true, if_neg hneg]
        exact add_nonneg h1 (not_lt.mp hneg)
      · simp only [simulateSell, hp, if_true, if_neg hneg]
        exact le_trans (List.length_filter_le _ _) h2
  · rw [Bool.not_eq_true] at hp
    simp [simulateSell, hp, h1, h2]

/-- C4: starting from the initial state (full configured budget, empty
position set), after any finite sequence of buy and sell operations the
budget is nonnegative and the open-position count is at most the configured
maximum. -/
theorem budget_position_invariant (cfg : Config) (ops : List TradeOp)
    (hb : 0 ≤ cfg.VIRTUAL_BUDGET_SOL) :
    0 ≤ (runTradeOps cfg (initialState cfg) ops).virtualBudget ∧
    (runTradeOps cfg (initialState cfg) ops).activePositions.length
      ≤ cfg.MAX_CONCURRENT_POSITIONS := by
  have main : ∀ (l : List TradeOp) (st : LedgerState),
      0 ≤ st.virtualBudget →
      st.activePositions.length ≤ cfg.MAX_CONCURRENT_POSITIONS →
      0 ≤ (runTradeOps cfg st l).virtualBudget ∧
      (runTradeOps cfg st l).activePositions.length
        ≤ cfg.MAX_CONCURRENT_POSITIONS := by
    intro l
    induction l with
    | nil => intro st hA hB; exact ⟨hA, hB⟩
    | cons op rest ih =>
      intro st hA hB
      have hfold : runTradeOps cfg st (op :: rest)
          = runTradeOps cfg (applyTradeOp cfg st op) rest := rfl
      rw [hfold]
      rcases op with ⟨m, pid, pr, sl, now⟩ | ⟨pos, pr, sl, reason, now⟩
      · have hstep := simulateBuy_invariant cfg st m pid pr sl now hA hB
        exact ih _ hstep.1 hstep.2
      · have hstep := simulateSell_invariant cfg st pos pr sl reason now hA hB
        exact ih _ hstep.1 hstep.2
  exact main ops (initialState cfg) hb (by simp [initialState])

/-- Witness for budget_position_invariant: the default configuration budget
is nonnegative and the invariant holds after a one-buy sequence. -/
theorem budget_position_invariant_witness :
    0 ≤ defaultConfig.VIRTUAL_BUDGET_SOL ∧
    (0 ≤ (runTradeOps defaultConfig (initialState defaultConfig)
        [TradeOp.buy "T" "P" 1 0 0]).virtualBudget ∧
      (runTradeOps defaultConfig (initialState defaultConfig)
        [TradeOp.buy "T" "P" 1 0 0]).activePositions.length
        ≤ defaultConfig.MAX_CONCURRENT_POSITIONS) :=
  ⟨by decide,
    budget_position_invariant defaultConfig [TradeOp.buy "T" "P" 1 0 0] (by decide)⟩

/-- updateFirst only raises peak prices and preserves every other field of
every element (pointwise along the list). -/
lemma updateFirst_forall₂ (l : List Position) (mint : String) (price : ℚ) :
    List.Forall₂ (fun a b => a.peakPrice ≤ b.peakPrice ∧ a.buyPrice = b.buyPrice)
      l (updateFirst l mint price) := by
  induction l with
  | nil => exact List.Forall₂.nil
  | cons q rest ih =>
    have hrefl : List.Forall₂
        (fun a b => a.peakPrice ≤ b.peakPrice ∧ a.buyPrice = b.buyPrice) rest rest :=
      List.forall₂_same.mpr (fun x _ => ⟨le_refl _, rfl⟩)
    simp only [updateFirst]
    split_ifs with hm hlt
    · exact List.Forall₂.cons ⟨le_of_lt hlt, rfl⟩ hrefl
    · exact List.Forall₂.cons ⟨le_refl _, rfl⟩ hrefl
    · exact List.Forall₂.cons ⟨le_refl _, rfl⟩ ih

/-- updateFirst preserves the peak-at-least-buy invariant. -/
lemma updateFirst_preserves_peakInv (l : List Position) (mint : String) (price : ℚ)
    (h : ∀ p ∈ l, p.buyPrice ≤ p.peakPrice) :
    ∀ p ∈ updateFirst l mint price, p.buyPrice ≤ p.peakPrice := by
  intro p hp
  have hf := updateFirst_forall₂ l mint price
  rcases List.forall₂_iff_get.mp hf with ⟨hlen, hget⟩
  rcases List.mem_iff_get.mp hp with ⟨i, hi⟩
  have hi2 : i.1 < l.length := by
    have := i.2
    omega
  have hrel := hget i.1 hi2 (by omega)
  have hmem : l.get ⟨i.1, hi2⟩ ∈ l := List.get_mem l i.1 hi2
  have hinv := h _ hmem
  rw [← hi]
  have hle : (l.get ⟨i.1, hi2⟩).peakPrice
      ≤ ((updateFirst l mint price).get ⟨i.1, by omega⟩).peakPrice := by
    simpa using hrel.1
  have hbuy : (l.get ⟨i.1, hi2⟩).buyPrice
      = ((updateFirst l mint price).get ⟨i.1, by omega⟩).buyPrice := by
    simpa using hrel.2
  have : (updateFirst l mint price).get ⟨i.1, by omega⟩
      = (updateFirst l mint price).get i := by
    congr 1
  rw [← this]
  rw [← hbuy]
  exact le_trans hinv hle

/-- A buy step preserves the peak-at-least-buy invariant. -/
lemma simulateBuy_peakInv (cfg : Config) (st : LedgerState) (m pid : String)
    (pr sl : ℚ) (now : ℤ)
    (h : ∀ p ∈ st.activePositions, p.buyPrice ≤ p.peakPrice) :
    ∀ p ∈ (simulateBuy cfg st m pid pr sl now).2.activePositions,
      p.buyPrice ≤ p.peakPrice := by
  by_cases hc : canBuy cfg st m = true
  · by_cases hamt : calculateTokensForSol cfg.TRADE_SIZE_SOL pr
        cfg.RAYDIUM_FEE_PERCENT sl ≤ 0
    · simpa [simulateBuy, hc, hamt] using h
    · intro p hp
      simp only [simulateBuy, hc, if_true, if_neg hamt, List.mem_append,
        List.mem_singleton] at hp
      rcases hp with hp | hp
      · exact h p hp
      · subst hp; exact le_refl _
  · rw [Bool.not_eq_true] at hc
    simpa [simulateBuy, hc] using h

/-- A sell step preserves the peak-at-least-buy invariant. -/
lemma simulateSell_peakInv (cfg : Config) (st : LedgerState) (pos : Position)
    (pr sl : ℚ) (reason : String) (now : ℤ)
    (h : ∀ p ∈ st.activePositions, p.buyPrice ≤ p.peakPrice) :
    ∀ p ∈ (simulateSell cfg st pos pr sl reason now).2.activePositions,
      p.buyPrice ≤ p.peakPrice := by
  by_cases hp : (st.activePositions.any
      (fun p => p.tokenMintAddress == pos.tokenMintAddress)) = true
  · by_cases hneg : calculateSolForTokens pos.tokenAmount pr
        cfg.RAYDIUM_FEE_PERCENT sl < 0
    · simpa [simulateSell, hp, hneg] using h
    · intro q hq
      simp only [simulateSell, hp, if_true, if_neg hneg, List.mem_filter] at hq
      exact h q hq.1
  · rw [Bool.not_eq_true] at hp
    simpa [simulateSell, hp] using h

/-- C6: every open position at every ledger state reachable from the initial
state by buys, sells and peak updates has peak price at least its buy price;
a peak update never lowers any stored peak (and never touches the buy
price); and a successful buy initializes the peak price to the reference
price. -/
theorem peak_price_invariant :
    (∀ (cfg : Config) (acts : List LedgerAction) (p : Position),
      p ∈ (runActions cfg (initialState cfg) acts).activePositions →
      p.buyPrice ≤ p.peakPrice) ∧
    (∀ (st : LedgerState) (mint : String) (price : ℚ),
      List.Forall₂ (fun a b => a.peakPrice ≤ b.peakPrice ∧ a.buyPrice = b.buyPrice)
        st.activePositions (updatePeakPrice st mint price).activePositions) ∧
    (∀ (cfg : Config) (st : LedgerState) (mint pid : String) (price sl : ℚ)
        (now : ℤ) (pos : Position),
      (simulateBuy cfg st mint pid price sl now).1 = some pos →
      pos.peakPrice = price) := by
  refine ⟨?_, ?_, ?_⟩
  · intro cfg acts
    have main : ∀ (l : List LedgerAction) (st : LedgerState),
        (∀ p ∈ st.activePositions, p.buyPrice ≤ p.peakPrice) →
        ∀ p ∈ (runActions cfg st l).activePositions, p.buyPrice ≤ p.peakPrice := by
      intro l
      induction l with
      | nil => intro st h; exact h
      | cons act rest ih =>
        intro st h
        have hfold : runActions cfg st (act :: rest)
            = runActions cfg (applyAction cfg st act) rest := rfl
        rw [hfold]
        rcases act with ⟨m, pid, pr, sl, now⟩ | ⟨pos, pr, sl, reason, now⟩ | ⟨m, pr⟩
        · exact ih _ (simulateBuy_peakInv cfg st m pid pr sl now h)
        · exact ih _ (simulateSell_peakInv cfg st pos pr sl reason now h)
        · exact ih _ (updateFirst_preserves_peakInv st.activePositions m pr h)
    intro p hp
    exact main acts (initialState cfg) (by simp [initialState]) p hp
  · intro st mint price
    exact updateFirst_forall₂ st.activePositions mint price
  · intro cfg st mint pid price sl now pos h
    by_cases hc : canBuy cfg st mint = true
    · by_cases hamt : calculateTokensForSol cfg.TRADE_SIZE_SOL price
          cfg.RAYDIUM_FEE_PERCENT sl ≤ 0
      · simp [simulateBuy, hc, hamt] at h
      · simp only [simulateBuy, hc, if_true, if_neg hamt, Option.some.injEq] at h
        rw [← h]
    · rw [Bool.not_eq_true] at hc
      simp [simulateBuy, hc] at h

/-- Witness for peak_price_invariant: the position created by a single buy
has peak price at least its buy price. -/
theorem peak_price_invariant_witness :
    witnessBoughtPosition
      ∈ (runActions witnessConfig (initialState witnessConfig)
          [LedgerAction.buy "T" "P" 1 0 0]).activePositions ∧
    witnessBoughtPosition.buyPrice ≤ witnessBoughtPosition.peakPrice := by
  have hmem : witnessBoughtPosition
      ∈ (runActions witnessConfig (initialState witnessConfig)
          [LedgerAction.buy "T" "P" 1 0 0]).activePositions := by
    simp +decide [runActions, applyAction, simulateBuy, canBuy, calculateTokensForSol,
      witnessConfig, initialState, witnessBoughtPosition]
  exact ⟨hmem,
    peak_price_invariant.1 witnessConfig [LedgerAction.buy "T" "P" 1 0 0]
      witnessBoughtPosition hmem⟩

/-- C10: for every persisted position list (including a non-empty one),
after initializeTrading loads it the virtual budget equals the full
configured initial budget and getVirtualBudget returns that value, while the
loaded positions are restored unchanged — their committed SOL is not
subtracted from the available budget. -/
theorem restart_budget_spec (cfg : Config) (loadedTrades : List Position)
    (hb : 0 ≤ cfg.VIRTUAL_BUDGET_SOL) :
    getVirtualBudget (initializeTrading cfg loadedTrades) = cfg.VIRTUAL_BUDGET_SOL ∧
    (initializeTrading cfg loadedTrades).activePositions = loadedTrades := by
  constructor
  · simp [getVirtualBudget, initializeTrading, not_lt.mpr hb]
  · unfold initializeTrading
    by_cases h : 0 < loadedTrades.length
    · simp [h]
    · have hnil : loadedTrades = [] := by
        cases loadedTrades with
        | nil => rfl
        | cons a l => exact absurd (by simp) h
      simp [h, hnil]

/-- Witness for restart_budget_spec with a non-empty persisted list. -/
theorem restart_budget_spec_witness :
    0 ≤ defaultConfig.VIRTUAL_BUDGET_SOL ∧
    (getVirtualBudget (initializeTrading defaultConfig [witnessBoughtPosition])
        = defaultConfig.VIRTUAL_BUDGET_SOL ∧
      (initializeTrading defaultConfig [witnessBoughtPosition]).activePositions
        = [witnessBoughtPosition]) :=
  ⟨by decide, restart_budget_spec defaultConfig [witnessBoughtPosition] (by decide)⟩

/-- C1 (divergence evidence): a pool event whose age, pairing and freeze
checks pass but whose liquidity lookup returns data without a recognizable
SOL amount (raw data only) is ACCEPTED by analyzeTokenAndPool — the
optimistic pass-through — rather than rejected as the specification
mandates. -/
theorem optimistic_liquidity_divergence :
    (analyzeTokenAndPool defaultQualifierConfig 0 rawOnlyPoolData
        (some revokedMintInfo) (some rawOnlyLiquidity)).suitable = true ∧
    rawOnlyLiquidity.solAmount = none := by
  constructor
  · simp +decide [analyzeTokenAndPool, rawOnlyPoolData, revokedMintInfo,
      rawOnlyLiquidity, defaultQualifierConfig, jsFalsy, acceptVerdict,
      WRAPPED_SOL_MINT]
  · rfl

/-- analyzeTokenAndPool either rejects, or returns the accept verdict for a
candidate mint determined by the SOL pairing (the non-native mint), a
candidate that is never the wrapped SOL mint itself. -/
lemma analyze_accept_shape (qcfg : QualifierConfig) (now : ℤ) (pd : PoolData)
    (mi : Option MintInfo) (liq : Option LiquidityData) :
    (analyzeTokenAndPool qcfg now pd mi liq).suitable = false ∨
    ∃ tok, analyzeTokenAndPool qcfg now pd mi liq
        = acceptVerdict tok pd.ammId "all checks passed" ∧
      ((pd.tokenA_mint = WRAPPED_SOL_MINT ∧ tok = pd.tokenB_mint) ∨
        (pd.tokenA_mint ≠ WRAPPED_SOL_MINT ∧ pd.tokenB_mint = WRAPPED_SOL_MINT ∧
          tok = pd.tokenA_mint)) ∧
      tok ≠ WRAPPED_SOL_MINT := by
  simp only [analyzeTokenAndPool]
  split
  · left; simp [rejectVerdict]
  split
  · left; simp [rejectVerdict]
  next solMint newTok heq =>
    have hpair : (pd.tokenA_mint = WRAPPED_SOL_MINT ∧ newTok = pd.tokenB_mint) ∨
        (pd.tokenA_mint ≠ WRAPPED_SOL_MINT ∧ pd.tokenB_mint = WRAPPED_SOL_MINT ∧
          newTok = pd.tokenA_mint) := by
      split_ifs at heq with h1 h2
      · simp only [Option.some.injEq, Prod.mk.injEq] at heq
        exact Or.inl ⟨beq_iff_eq.mp h1, heq.2.symm⟩
      · simp only [Option.some.injEq, Prod.mk.injEq] at heq
        exact Or.inr ⟨fun hc => h1 (beq_iff_eq.mpr hc), beq_iff_eq.mp h2, heq.2.symm⟩
    split
    · left; simp [rejectVerdict]
    split
    next hWS => left; simp [rejectVerdict]
    next hWS =>
      have hne : newTok ≠ WRAPPED_SOL_MINT := fun hc => hWS (beq_iff_eq.mpr hc)
      split
      · left; simp [rejectVerdict]
      next m =>
        split
        next fa hfa => left; simp [rejectVerdict]
        next hfa =>
          split
          · left; simp [rejectVerdict]
          next ld =>
            split
            next hraw =>
              exact Or.inr ⟨newTok, rfl, hpair, hne⟩
            next hraw =>
              split
              next amt hsa =>
                split
                next hmin => left; simp [rejectVerdict]
                next hmin => exact Or.inr ⟨newTok, rfl, hpair, hne⟩
              next hsa => left; simp [rejectVerdict]

/-- C8: the qualifier rejects when neither reserve mint is the wrapped SOL
mint and when both are; an accept verdict implies exactly one reserve mint
was the wrapped SOL mint, and carries the other (non-native) mint as the
candidate token together with the pool id. -/
theorem pairing_rule_spec (qcfg : QualifierConfig) (now : ℤ) (pd : PoolData)
    (mi : Option MintInfo) (liq : Option LiquidityData) :
    (pd.tokenA_mint ≠ WRAPPED_SOL_MINT → pd.tokenB_mint ≠ WRAPPED_SOL_MINT →
      (analyzeTokenAndPool qcfg now pd mi liq).suitable = false) ∧
    (pd.tokenA_mint = WRAPPED_SOL_MINT → pd.tokenB_mint = WRAPPED_SOL_MINT →
      (analyzeTokenAndPool qcfg now pd mi liq).suitable = false) ∧
    ((analyzeTokenAndPool qcfg now pd mi liq).suitable = true →
      ((pd.tokenA_mint = WRAPPED_SOL_MINT ∧ pd.tokenB_mint ≠ WRAPPED_SOL_MINT ∧
          (analyzeTokenAndPool qcfg now pd mi liq).tokenMint = some pd.tokenB_mint) ∨
        (pd.tokenB_mint = WRAPPED_SOL_MINT ∧ pd.tokenA_mint ≠ WRAPPED_SOL_MINT ∧
          (analyzeTokenAndPool qcfg now pd mi liq).tokenMint = some pd.tokenA_mint)) ∧
      (analyzeTokenAndPool qcfg now pd mi liq).poolId = some pd.ammId) := by
  rcases analyze_accept_shape qcfg now pd mi liq with hrej | ⟨tok, hv, hcase, hne⟩
  · refine ⟨fun _ _ => hrej, fun _ _ => hrej, fun h => ?_⟩
    rw [hrej] at h
    exact absurd h (by simp)
  · refine ⟨?_, ?_, ?_⟩
    · intro hA hB
      rcases hcase with ⟨hA2, -⟩ | ⟨-, hB2, -⟩
      · exact absurd hA2 hA
      · exact absurd hB2 hB
    · intro hA hB
      rcases hcase with ⟨-, htok⟩ | ⟨hA2, -, -⟩
      · exact absurd (htok.trans hB) hne
      · exact absurd hA hA2
    · intro _
      refine ⟨?_, by rw [hv]; rfl⟩
      rcases hcase with ⟨hA2, htok⟩ | ⟨hA2, hB2, htok⟩
      · exact Or.inl ⟨hA2, htok ▸ hne, by rw [hv, htok]; rfl⟩
      · exact Or.inr ⟨hB2, hA2, by rw [hv, htok]; rfl⟩

/-- Witness for pairing_rule_spec at a concrete accepted pool event. -/
theorem pairing_rule_spec_witness :
    (analyzeTokenAndPool defaultQualifierConfig 0 rawOnlyPoolData
        (some revokedMintInfo) (some parsedLiquidity)).suitable = true ∧
    (((rawOnlyPoolData.tokenA_mint = WRAPPED_SOL_MINT ∧
        rawOnlyPoolData.tokenB_mint ≠ WRAPPED_SOL_MINT ∧
        (analyzeTokenAndPool defaultQualifierConfig 0 rawOnlyPoolData
          (some revokedMintInfo) (some parsedLiquidity)).tokenMint
          = some rawOnlyPoolData.tokenB_mint) ∨
      (rawOnlyPoolData.tokenB_mint = WRAPPED_SOL_MINT ∧
        rawOnlyPoolData.tokenA_mint ≠ WRAPPED_SOL_MINT ∧
        (analyzeTokenAndPool defaultQualifierConfig 0 rawOnlyPoolData
          (some revokedMintInfo) (some parsedLiquidity)).tokenMint
          = some rawOnlyPoolData.tokenA_mint)) ∧
      (analyzeTokenAndPool defaultQualifierConfig 0 rawOnlyPoolData
        (some revokedMintInfo) (some parsedLiquidity)).poolId
        = some rawOnlyPoolData.ammId) := by
  have h : (analyzeTokenAndPool defaultQualifierConfig 0 rawOnlyPoolData
      (some revokedMintInfo) (some parsedLiquidity)).suitable = true := by
    simp +decide [analyzeTokenAndPool, rawOnlyPoolData, revokedMintInfo,
      parsedLiquidity, defaultQualifierConfig, jsFalsy, acceptVerdict,
      WRAPPED_SOL_MINT]
  exact ⟨h,
    (pairing_rule_spec defaultQualifierConfig 0 rawOnlyPoolData
      (some revokedMintInfo) (some parsedLiquidity)).2.2 h⟩

/-- C2 (counterexample): on the price path [1.0, 1.20, 1.30, 1.21] with the
default 15% profit target, the position sells at the 1.20 observation with
reason profit_target — it does NOT arm the trailing stop at 1.30 and sell at
1.21 with reason trailing_stop. -/
theorem exit_path_counterexample :
    (runCycles defaultConfig defaultExitConfig "TOKEN" 0
        exampleState examplePrices).1 = some (6/5, "profit_target") ∧
    (runCycles defaultConfig defaultExitConfig "TOKEN" 0
        exampleState examplePrices).1 ≠ some (121/100, "trailing_stop") := by
  have h : (runCycles defaultConfig defaultExitConfig "TOKEN" 0
      exampleState examplePrices).1 = some (6/5, "profit_target") := by
    norm_num [runCycles, examplePrices, exampleState, examplePosition,
      checkExitConditions, updatePeakPrice, updateFirst, simulateSell,
      calculateSolForTokens, defaultConfig, defaultExitConfig, List.find?]
  refine ⟨h, ?_⟩
  rw [h]
  intro hc
  simp only [Option.some.injEq, Prod.mk.injEq] at hc
  exact absurd hc.2 (by decide)

/-- C2 (amended): for a position with a valid positive cycle price, the three
exit rules are evaluated in the fixed order profit target, trailing stop,
time limit, the first matching rule selling and ending the evaluation; the
trailing stop fires only when the freshly updated peak strictly exceeds
buy*(1+profitTargetPercent) and the price is below peak*(1-trailingStop);
a position matching no rule is left open with only its peak updated; and on
the default-configuration path [1.0, 1.20, 1.30, 1.21] the position sells at
the 1.20 observation with reason profit_target (the 20% gain meets the 15%
target before the trailing stop can arm). -/
theorem exit_rule_order_spec :
    (∀ (cfg : Config) (ecfg : ExitConfig) (st : LedgerState) (pos : Position)
        (price sl : ℚ) (now : ℤ) (pu : Position),
      0 < price →
      (updatePeakPrice st pos.tokenMintAddress price).activePositions.find?
          (fun p => p.tokenMintAddress == pos.tokenMintAddress) = some pu →
      ecfg.PROFIT_TARGET_PERCENT ≤ (price - pu.buyPrice) / pu.buyPrice →
      checkExitConditions cfg ecfg st pos (some price) sl now
        = (ExitOutcome.sold "profit_target",
            (simulateSell cfg (updatePeakPrice st pos.tokenMintAddress price)
              pu price sl "profit_target" now).2)) ∧
    (∀ (cfg : Config) (ecfg : ExitConfig) (st : LedgerState) (pos : Position)
        (price sl : ℚ) (now : ℤ) (pu : Position),
      0 < price →
      (updatePeakPrice st pos.tokenMintAddress price).activePositions.find?
          (fun p => p.tokenMintAddress == pos.tokenMintAddress) = some pu →
      (price - pu.buyPrice) / pu.buyPrice < ecfg.PROFIT_TARGET_PERCENT →
      pu.buyPrice * (1 + ecfg.PROFIT_TARGET_PERCENT) < pu.peakPrice →
      price < pu.peakPrice * (1 - ecfg.TRAILING_STOP_PERCENT) →
      checkExitConditions cfg ecfg st pos (some price) sl now
        = (ExitOutcome.sold "trailing_stop",
            (simulateSell cfg (updatePeakPrice st pos.tokenMintAddress price)
              pu price sl "trailing_stop" now).2)) ∧
    (∀ (cfg : Config) (ecfg : ExitConfig) (st : LedgerState) (pos : Position)
        (price sl : ℚ) (now : ℤ) (pu : Position),
      0 < price →
      (updatePeakPrice st pos.tokenMintAddress price).activePositions.find?
          (fun p => p.tokenMintAddress == pos.tokenMintAddress) = some pu →
      (price - pu.buyPrice) / pu.buyPrice < ecfg.PROFIT_TARGET_PERCENT →
      ¬ (pu.buyPrice * (1 + ecfg.PROFIT_TARGET_PERCENT) < pu.peakPrice ∧
          price < pu.peakPrice * (1 - ecfg.TRAILING_STOP_PERCENT)) →
      ecfg.TRADE_TIME_LIMIT_MINUTES ≤ ((now - pu.buyTimestamp : ℤ) : ℚ) / (1000 * 60) →
      checkExitConditions cfg ecfg st pos (some price) sl now
        = (ExitOutcome.sold "time_limit",
            (simulateSell cfg (updatePeakPrice st pos.tokenMintAddress price)
              pu price sl "time_limit" now).2)) ∧
    (∀ (cfg : Config) (ecfg : ExitConfig) (st : LedgerState) (pos : Position)
        (price sl : ℚ) (now : ℤ) (pu : Position),
      0 < price →
      (updatePeakPrice st pos.tokenMintAddress price).activePositions.find?
          (fun p => p.tokenMintAddress == pos.tokenMintAddress) = some pu →
      (price - pu.buyPrice) / pu.buyPrice < ecfg.PROFIT_TARGET_PERCENT →
      ¬ (pu.buyPrice * (1 + ecfg.PROFIT_TARGET_PERCENT) < pu.peakPrice ∧
          price < pu.peakPrice * (1 - ecfg.TRAILING_STOP_PERCENT)) →
      ((now - pu.buyTimestamp : ℤ) : ℚ) / (1000 * 60) < ecfg.TRADE_TIME_LIMIT_MINUTES →
      checkExitConditions cfg ecfg st pos (some price) sl now
        = (ExitOutcome.noExit, updatePeakPrice st pos.tokenMintAddress price)) ∧
    (∀ (cfg : Config) (ecfg : ExitConfig) (st : LedgerState) (pos : Position)
        (price sl : ℚ) (now : ℤ),
      (checkExitConditions cfg ecfg st pos (some price) sl now).1
          = ExitOutcome.sold "trailing_stop" →
      ∃ pu, (updatePeakPrice st pos.tokenMintAddress price).activePositions.find?
          (fun p => p.tokenMintAddress == pos.tokenMintAddress) = some pu ∧
        pu.buyPrice * (1 + ecfg.PROFIT_TARGET_PERCENT) < pu.peakPrice ∧
        price < pu.peakPrice * (1 - ecfg.TRAILING_STOP_PERCENT)) ∧
    (runCycles defaultConfig defaultExitConfig "TOKEN" 0
        exampleState examplePrices).1 = some (6/5, "profit_target") := by
  refine ⟨?_, ?_, ?_, ?_, ?_, ?_⟩
  · intro cfg ecfg st pos price sl now pu hpos hfind hprof
    simp only [checkExitConditions, if_neg (not_le.mpr hpos), hfind, if_pos hprof]
  · intro cfg ecfg st pos price sl now pu hpos hfind hprof harm hdrop
    simp only [checkExitConditions, if_neg (not_le.mpr hpos), hfind,
      if_neg (not_le.mpr hprof), if_pos (And.intro harm hdrop)]
  · intro cfg ecfg st pos price sl now pu hpos hfind hprof htrail htime
    simp only [checkExitConditions, if_neg (not_le.mpr hpos), hfind,
      if_neg (not_le.mpr hprof), if_neg htrail, if_pos htime]
  · intro cfg ecfg st pos price sl now pu hpos hfind hprof htrail htime
    simp only [checkExitConditions, if_neg (not_le.mpr hpos), hfind,
      if_neg (not_le.mpr hprof), if_neg htrail, if_neg (not_le.mpr htime)]
  · intro cfg ecfg st pos price sl now h
    by_cases hpos : 0 < price
    case neg =>
      exfalso
      simp only [checkExitConditions, if_pos (not_lt.mp hpos)] at h
      exact absurd h (by simp)
    cases hfind : (updatePeakPrice st pos.tokenMintAddress price).activePositions.find?
        (fun p => p.tokenMintAddress == pos.tokenMintAddress) with
    | none =>
      exfalso
      simp only [checkExitConditions, if_neg (not_le.mpr hpos), hfind] at h
      exact absurd h (by simp)
    | some pu =>
      simp only [checkExitConditions, if_neg (not_le.mpr hpos), hfind] at h
      split_ifs at h with h1 h2 h3 <;>
        first
          | exact ⟨pu, rfl, h2.1, h2.2⟩
          | exact absurd h (by simp)
  · norm_num [runCycles, examplePrices, exampleState, examplePosition,
      checkExitConditions, updatePeakPrice, updateFirst, simulateSell,
      calculateSolForTokens, defaultConfig, defaultExitConfig, List.find?]

/-- Witness for exit_rule_order_spec: the trailing-stop rule fires on a
concrete armed position. -/
theorem exit_rule_order_spec_witness :
    (0:ℚ) < 1 ∧
    ((updatePeakPrice armedState armedPosition.tokenMintAddress 1).activePositions.find?
        (fun p => p.tokenMintAddress == armedPosition.tokenMintAddress)
      = some armedPosition) ∧
    ((1 - armedPosition.buyPrice) / armedPosition.buyPrice
      < armedExitConfig.PROFIT_TARGET_PERCENT) ∧
    (armedPosition.buyPrice * (1 + armedExitConfig.PROFIT_TARGET_PERCENT)
      < armedPosition.peakPrice) ∧
    ((1:ℚ) < armedPosition.peakPrice * (1 - armedExitConfig.TRAILING_STOP_PERCENT)) ∧
    checkExitConditions witnessConfig armedExitConfig armedState armedPosition
        (some 1) 0 0
      = (ExitOutcome.sold "trailing_stop",
          (simulateSell witnessConfig
            (updatePeakPrice armedState armedPosition.tokenMintAddress 1)
            armedPosition 1 0 "trailing_stop" 0).2) := by
  have h1 : (0:ℚ) < 1 := by decide
  have h2 : (updatePeakPrice armedState armedPosition.tokenMintAddress 1).activePositions.find?
      (fun p => p.tokenMintAddress == armedPosition.tokenMintAddress)
      = some armedPosition := by
    simp +decide [updatePeakPrice, updateFirst, armedState, armedPosition]
  have h3 : (1 - armedPosition.buyPrice) / armedPosition.buyPrice
      < armedExitConfig.PROFIT_TARGET_PERCENT := by
    simp +decide [armedPosition, armedExitConfig]
  have h4 : armedPosition.buyPrice * (1 + armedExitConfig.PROFIT_TARGET_PERCENT)
      < armedPosition.peakPrice := by
    simp +decide [armedPosition, armedExitConfig]
  have h5 : (1:ℚ) < armedPosition.peakPrice
      * (1 - armedExitConfig.TRAILING_STOP_PERCENT) := by
    simp +decide [armedPosition, armedExitConfig]
  exact ⟨h1, h2, h3, h4, h5,
    exit_rule_order_spec.2.1 witnessConfig armedExitConfig armedState armedPosition
      1 0 0 armedPosition h1 h2 h3 h4 h5⟩

end CoinHunter
